import Mathlib

/-!
Verification of the Permission Authorization Service of the crush repository
(`internal/permission`, file modelled here from its Go source).

The sequential behaviour of the service is embedded as pure functions over an
explicit `ServiceState`; every externally visible side effect (a publish on the
notification broker, a publish on the request broker, a send on a rendezvous
channel, an append to the session-permission cache) is recorded, in program
order, in a `List Effect` returned alongside the new state.  The capacity-1
rendezvous channel of a pending request is modelled as an `Option Bool` buffer
stored in the pending-request table; an operation that would block on a full
buffer returns `none`.

The filesystem probe (`os.Stat`) and `filepath.Dir` are external inputs of the
service and are passed in as parameters (`fsStat : String → Option Bool`, where
`some b` means the path exists and `b` tells whether it is a directory, and
`dirOf : String → String`).  The fresh UUID drawn for a request is likewise a
parameter.

The single-flight serialization of prompts (claim C1) is a concurrency
property; it is settled over a small labelled transition system, in namespace
`SingleFlight`, whose steps mirror the lock discipline of
`permissionService.Request`: the global `requestMu` is acquired before the
fast-path checks and is held, via `defer`, through the entire rendezvous wait.
-/

namespace Permission

/-- The three mutually exclusive permission states (`PermissionMode`). -/

inductive PermissionMode where
  | ModeRegular
  | ModeYolo
  | ModePlan
deriving DecidableEq, Repr, BEq

/-- Input of `Request` (`CreatePermissionRequest`).  The opaque `Params any`
field plays no role in any behaviour and is omitted. -/

structure CreatePermissionRequest where
  sessionID : String
  toolCallID : String
  toolName : String
  description : String
  action : String
  path : String
deriving DecidableEq, Repr

/-- A synthesized permission request (`PermissionRequest`); `Params` omitted as
above. -/

structure PermissionRequest where
  id : String
  sessionID : String
  toolCallID : String
  toolName : String
  description : String
  action : String
  path : String
deriving DecidableEq, Repr

/-- An event on the notification broker (`PermissionNotification`). -/

structure PermissionNotification where
  toolCallID : String
  granted : Bool
  denied : Bool
deriving DecidableEq, Repr

/-- One externally visible side effect of an operation, in program order. -/

inductive Effect where
  /-- `notificationBroker.Publish(CreatedEvent, n)`. -/
  | notifyEv (n : PermissionNotification)
  /-- `s.Publish(CreatedEvent, p)`: the prompt-created event on the request
  stream. -/
  | promptEv (p : PermissionRequest)
  /-- a decision value sent on the rendezvous channel of request `id`. -/
  | deliverEv (id : String) (v : Bool)
  /-- an append of `p` to the session permission cache. -/
  | cacheAppendEv (p : PermissionRequest)
deriving DecidableEq, Repr

/-- The mutable state of `permissionService`.  The two brokers are modelled by
the effect traces, the mutexes by the sequential semantics; the pending-request
table maps a request ID to the buffer of its capacity-1 channel. -/

structure ServiceState where
  workingDir : String
  sessionPermissions : List PermissionRequest
  pendingRequests : List (String × Option Bool)
  autoApproveSessions : List String
  mode : PermissionMode
  allowedTools : List String
  activeRequest : Option PermissionRequest
deriving DecidableEq, Repr

/-- `isWriteOperation`: actions blocked in plan mode. -/

def isWriteOperation (action : String) : Bool :=
  ["write", "execute"].contains action

/-- `isReadOnlyTool`: tools exempt from the plan-mode write block. -/

def isReadOnlyTool (toolName : String) : Bool :=
  ["mcp_sequential-thinking_sequentialthinking"].contains toolName

/-- `csync.Map.Get` on the pending-request table. -/

def pendGet (l : List (String × Option Bool)) (k : String) : Option (Option Bool) :=
  (l.find? (fun e => e.1 == k)).map (fun e => e.2)

/-- `csync.Map.Del` on the pending-request table. -/

def pendDel (l : List (String × Option Bool)) (k : String) : List (String × Option Bool) :=
  l.filter (fun e => e.1 != k)

/-- `csync.Map.Set` on the pending-request table (map semantics: replace or
insert). -/

def pendSet (l : List (String × Option Bool)) (k : String) (v : Option Bool) :
    List (String × Option Bool) :=
  (k, v) :: pendDel l k

/-- Number of entries of the table carrying key `k` (a map holds at most
one). -/

def countKey (l : List (String × Option Bool)) (k : String) : Nat :=
  (l.filter (fun e => e.1 == k)).length

/-- `respCh, ok := s.pendingRequests.Get(id); if ok { respCh <- v }`.
If the key is absent nothing happens; if its buffer is empty the value is
buffered; if the buffer is already full the send would block, modelled as
`none`. -/

def deliverSlot (l : List (String × Option Bool)) (k : String) (v : Bool) :
    Option (List (String × Option Bool) × List Effect) :=
  match pendGet l k with
  | none => some (l, [])
  | some none => some (pendSet l k (some v), [Effect.deliverEv k v])
  | some (some _) => none

/-- The tail of every decision call: clear `activeRequest` when its ID
matches. -/

def clearActive (s : ServiceState) (id : String) : ServiceState :=
  match s.activeRequest with
  | some a => if a.id == id then { s with activeRequest := none } else s
  | none => s

/-- `permissionService.Grant`. -/

def grant (s : ServiceState) (p : PermissionRequest) :
    Option (ServiceState × List Effect) :=
  let note := Effect.notifyEv ⟨p.toolCallID, true, false⟩
  match deliverSlot s.pendingRequests p.id true with
  | none => none
  | some (pr1, des) =>
      some (clearActive { s with pendingRequests := pr1 } p.id, note :: des)

/-- `permissionService.GrantPersistent`: like `Grant`, and additionally append
`p` to the session permission cache.  In the source the append happens after
the send on the rendezvous channel; the effect trace records that order. -/

def grantPersistent (s : ServiceState) (p : PermissionRequest) :
    Option (ServiceState × List Effect) :=
  let note := Effect.notifyEv ⟨p.toolCallID, true, false⟩
  match deliverSlot s.pendingRequests p.id true with
  | none => none
  | some (pr1, des) =>
      some (clearActive
              { s with pendingRequests := pr1,
                       sessionPermissions := s.sessionPermissions ++ [p] } p.id,
            note :: des ++ [Effect.cacheAppendEv p])

/-- `permissionService.Deny`. -/

def deny (s : ServiceState) (p : PermissionRequest) :
    Option (ServiceState × List Effect) :=
  let note := Effect.notifyEv ⟨p.toolCallID, false, true⟩
  match deliverSlot s.pendingRequests p.id false with
  | none => none
  | some (pr1, des) =>
      some (clearActive { s with pendingRequests := pr1 } p.id, note :: des)

/-- Path resolution inside `Request`: `os.Stat`; on success a directory keeps
the path and a plain file takes `filepath.Dir`; then `"."` is replaced by the
working directory. -/

def resolvePath (fsStat : String → Option Bool) (dirOf : String → String)
    (workingDir path : String) : String :=
  let dir := match fsStat path with
    | none => path
    | some true => path
    | some false => dirOf path
  if dir == "." then workingDir else dir

/-- Result of the non-blocking part of `Request`: an immediate return
`(granted, err)`, or a published prompt on which the caller now blocks. -/

inductive RequestOutcome where
  | immediate (granted : Bool) (err : Option String)
  | pending (req : PermissionRequest)
deriving DecidableEq, Repr

/-- `matchesCache p q`: the session-cache comparison of a cached record `p`
against a new request `q`. -/

def matchesCache (p q : PermissionRequest) : Bool :=
  p.toolName == q.toolName && p.action == q.action &&
    p.sessionID == q.sessionID && p.path == q.path

/-- The loop over `s.sessionPermissions`. -/

def cacheHit (cache : List PermissionRequest) (q : PermissionRequest) : Bool :=
  cache.any (fun p => matchesCache p q)

/-- `Request` past the mode gate: the "requested" notification, then under the
global `requestMu` the allowlist check, the auto-approve check, path
resolution, the session-cache scan, and finally registration plus publication
of a fresh prompt. -/

def requestAfterGate (fsStat : String → Option Bool) (dirOf : String → String)
    (freshID : String) (s : ServiceState) (opts : CreatePermissionRequest) :
    ServiceState × List Effect × RequestOutcome :=
  let requested := Effect.notifyEv ⟨opts.toolCallID, false, false⟩
  let commandKey := opts.toolName ++ ":" ++ opts.action
  if s.allowedTools.contains commandKey || s.allowedTools.contains opts.toolName then
    (s, [requested], .immediate true none)
  else if s.autoApproveSessions.contains opts.sessionID then
    (s, [requested, Effect.notifyEv ⟨opts.toolCallID, true, false⟩],
     .immediate true none)
  else
    let dir := resolvePath fsStat dirOf s.workingDir opts.path
    let permission : PermissionRequest :=
      { id := freshID, sessionID := opts.sessionID, toolCallID := opts.toolCallID,
        toolName := opts.toolName, description := opts.description,
        action := opts.action, path := dir }
    if cacheHit s.sessionPermissions permission then
      (s, [requested, Effect.notifyEv ⟨opts.toolCallID, true, false⟩],
       .immediate true none)
    else
      ({ s with activeRequest := some permission,
                pendingRequests := pendSet s.pendingRequests permission.id none },
       [requested, Effect.promptEv permission], .pending permission)

/-- `permissionService.Request` up to its suspension point: the mode switch
(plan-mode write block, yolo auto-approve), then `requestAfterGate`. -/

def request (fsStat : String → Option Bool) (dirOf : String → String)
    (freshID : String) (s : ServiceState) (opts : CreatePermissionRequest) :
    ServiceState × List Effect × RequestOutcome :=
  match s.mode with
  | .ModePlan =>
      if isWriteOperation opts.action && !(isReadOnlyTool opts.toolName) then
        (s, [], .immediate false (some "write operations are not allowed in plan mode"))
      else
        requestAfterGate fsStat dirOf freshID s opts
  | .ModeYolo => (s, [], .immediate true none)
  | .ModeRegular => requestAfterGate fsStat dirOf freshID s opts

/-- The `<-respCh` arm of the final `select`, together with the deferred
`pendingRequests.Del`: a buffered decision is consumed and the table entry
removed; with no buffered decision the caller stays blocked (`none`). -/

def awaitDecision (s : ServiceState) (id : String) :
    Option (ServiceState × Bool) :=
  match pendGet s.pendingRequests id with
  | some (some v) =>
      some ({ s with pendingRequests := pendDel s.pendingRequests id }, v)
  | _ => none

/-- The `<-ctx.Done()` arm of the final `select`, together with the deferred
`pendingRequests.Del`: `Request` returns `(false, ctx.Err())` and the table
entry is removed. -/

def cancelWait (s : ServiceState) (id : String) (ctxErr : String) :
    ServiceState × (Bool × Option String) :=
  ({ s with pendingRequests := pendDel s.pendingRequests id }, (false, some ctxErr))

/-- `permissionService.AutoApproveSession`. -/

def autoApproveSession (s : ServiceState) (sessionID : String) : ServiceState :=
  { s with autoApproveSessions :=
      if s.autoApproveSessions.contains sessionID then s.autoApproveSessions
      else sessionID :: s.autoApproveSessions }

/-- `permissionService.SetMode`. -/

def setMode (s : ServiceState) (mode : PermissionMode) : ServiceState :=
  { s with mode := mode }

/-- `permissionService.GetMode`. -/

def getMode (s : ServiceState) : PermissionMode :=
  s.mode

/-- Deprecated `permissionService.SetSkipRequests`. -/

def setSkipRequests (s : ServiceState) (skip : Bool) : ServiceState :=
  if skip then setMode s .ModeYolo else setMode s .ModeRegular

/-- Deprecated `permissionService.SkipRequests`. -/

def skipRequests (s : ServiceState) : Bool :=
  getMode s == .ModeYolo

/-- `NewPermissionService`. -/

def newPermissionService (workingDir : String) (skip : Bool)
    (allowedTools : List String) : ServiceState :=
  { workingDir := workingDir
    sessionPermissions := []
    pendingRequests := []
    autoApproveSessions := []
    mode := if skip then .ModeYolo else .ModeRegular
    allowedTools := allowedTools
    activeRequest := none }

/-- Whether an effect trace contains a granted notification. -/

def hasGrantedNotif (es : List Effect) : Bool :=
  es.any (fun e => match e with | .notifyEv n => n.granted | _ => false)

/-- Whether an effect trace contains a prompt-created event. -/

def hasPromptEv (es : List Effect) : Bool :=
  es.any (fun e => match e with | .promptEv _ => true | _ => false)

/-- Whether an effect trace contains a rendezvous delivery. -/

def hasDeliverEv (es : List Effect) : Bool :=
  es.any (fun e => match e with | .deliverEv _ _ => true | _ => false)

/-- `true` when, of the cache-append and rendezvous-delivery effects, the
cache append occurs first in the trace. -/

def cacheAppendPrecedesDeliver : List Effect → Bool
  | [] => false
  | .cacheAppendEv _ :: _ => true
  | .deliverEv _ _ :: _ => false
  | _ :: es => cacheAppendPrecedesDeliver es

/-! Concrete fixtures used by counterexamples and witnesses. -/

/-- A filesystem probe on which every `Stat` fails. -/

def noFS : String → Option Bool := fun _ => none

/-- A trivial instantiation of the external `filepath.Dir`. -/

def idDir : String → String := fun p => p

/-- The effect trace of a decision call (empty when the call would block). -/

def effectsOf (r : Option (ServiceState × List Effect)) : List Effect :=
  match r with
  | none => []
  | some x => x.2

def s4ex : ServiceState :=
  { workingDir := "/wd", sessionPermissions := [], pendingRequests := [],
    autoApproveSessions := [], mode := .ModeRegular, allowedTools := [],
    activeRequest := none }

def p4ex : PermissionRequest :=
  { id := "zz", sessionID := "s4", toolCallID := "tc4", toolName := "bash",
    description := "", action := "execute", path := "/repo" }

def s5ex : ServiceState :=
  { workingDir := "/wd", sessionPermissions := [], pendingRequests := [("id5", none)],
    autoApproveSessions := [], mode := .ModeRegular, allowedTools := [],
    activeRequest := none }

def p5ex : PermissionRequest :=
  { id := "id5", sessionID := "s5", toolCallID := "tc5", toolName := "bash",
    description := "", action := "execute", path := "/repo" }

def s6ex : ServiceState :=
  { workingDir := "/wd", sessionPermissions := [], pendingRequests := [],
    autoApproveSessions := [], mode := .ModeRegular, allowedTools := ["bash"],
    activeRequest := none }

def opts6ex : CreatePermissionRequest :=
  { sessionID := "s6", toolCallID := "tc6", toolName := "bash",
    description := "", action := "execute", path := "/repo" }

def s6aex : ServiceState :=
  { workingDir := "/wd", sessionPermissions := [], pendingRequests := [],
    autoApproveSessions := ["s6"], mode := .ModeRegular, allowedTools := [],
    activeRequest := none }

def s7ex : ServiceState :=
  { workingDir := "/wd", sessionPermissions := [], pendingRequests := [],
    autoApproveSessions := [], mode := .ModeRegular, allowedTools := [],
    activeRequest := none }

def opts7ex : CreatePermissionRequest :=
  { sessionID := "s7", toolCallID := "tc7", toolName := "bash",
    description := "", action := "execute", path := "" }

def p7ex : PermissionRequest :=
  { id := "id7", sessionID := "s7", toolCallID := "tc7", toolName := "bash",
    description := "", action := "execute", path := "" }

def s7res : ServiceState :=
  { s7ex with activeRequest := some p7ex, pendingRequests := [("id7", none)] }

def fs8 : String → Option Bool := fun p => if p == "/repo" then some true else none

def s8ex : ServiceState :=
  { workingDir := "/wd", sessionPermissions := [], pendingRequests := [("id8", none)],
    autoApproveSessions := [], mode := .ModeRegular, allowedTools := [],
    activeRequest := none }

def p8ex : PermissionRequest :=
  { id := "id8", sessionID := "s8", toolCallID := "tc8", toolName := "bash",
    description := "", action := "execute", path := "/repo" }

def s8res : ServiceState :=
  { s8ex with pendingRequests := [("id8", some true)], sessionPermissions := [p8ex] }

def opts8ex : CreatePermissionRequest :=
  { sessionID := "s8", toolCallID := "tc8b", toolName := "bash",
    description := "", action := "execute", path := "/repo" }

def opts8bex : CreatePermissionRequest :=
  { sessionID := "s8", toolCallID := "tc8c", toolName := "bash",
    description := "", action := "execute", path := "/other" }

def s9ex : ServiceState :=
  { workingDir := "/wd", sessionPermissions := [], pendingRequests := [],
    autoApproveSessions := [], mode := .ModeRegular, allowedTools := [],
    activeRequest := none }

def opts9ex : CreatePermissionRequest :=
  { sessionID := "s9", toolCallID := "tc9", toolName := "bash",
    description := "", action := "execute", path := "/repo" }

def p9ex : PermissionRequest :=
  { id := "id9", sessionID := "s9", toolCallID := "tc9", toolName := "bash",
    description := "", action := "execute", path := "/repo" }

def s9res : ServiceState :=
  { s9ex with activeRequest := some p9ex, pendingRequests := [("id9", none)] }

def s10ex : ServiceState :=
  { workingDir := "/wd", sessionPermissions := [], pendingRequests := [],
    autoApproveSessions := [], mode := .ModePlan, allowedTools := [],
    activeRequest := none }

end Permission

namespace SingleFlight

/-!
The concurrency model for the single-flight claim.  Each thread runs one
`permissionService.Request` call that requires prompting.  The lock discipline
of the source is mirrored exactly:

* `acquire` — `s.requestMu.Lock()`: taken after the "requested" notification,
  before every fast-path check, only when no other thread holds the lock;
* `fastReturn` — an allowlist, auto-approve or session-cache hit returns while
  holding the lock, and the deferred `Unlock` releases it;
* `publishPrompt` — `s.Publish(pubsub.CreatedEvent, permission)`: the
  prompt-created event on the request stream, emitted while holding the lock;
* `settle` — the rendezvous wait ends (a decision was delivered by
  Grant/GrantPersistent/Deny, or the caller's context ended) and `Request`
  returns, running the deferred `Unlock`.

Because the lock is held from before the fast-path checks through the entire
rendezvous wait, only the owner can publish, and the owner can release only by
returning — which, once its prompt is published, happens only by resolution or
cancellation, recorded as a `settle` event in the trace.
-/

/-- Where a thread stands in its `Request` call. -/

inductive Phase where
  | ready
  | holding
  | waiting
  | finished
deriving DecidableEq, Repr

/-- Observable events on the request stream: thread `t`'s prompt-created
event, and the resolution-or-cancellation of thread `t`'s request. -/

inductive Ev where
  | prompt (t : Nat)
  | settle (t : Nat)
deriving DecidableEq, Repr

/-- Global state: each thread's phase, the holder of `requestMu`, and the
event trace. -/

structure Sys where
  phase : Nat → Phase
  owner : Option Nat
  trace : List Ev

/-- All threads before their `Request` calls; the lock is free. -/

def Sys.init : Sys := ⟨fun _ => Phase.ready, none, []⟩

/-- One interleaving step. -/

inductive Step : Sys → Sys → Prop where
  | acquire (s : Sys) (t : Nat) (h1 : s.owner = none)
      (h2 : s.phase t = Phase.ready) :
      Step s ⟨Function.update s.phase t Phase.holding, some t, s.trace⟩
  | fastReturn (s : Sys) (t : Nat) (h1 : s.owner = some t)
      (h2 : s.phase t = Phase.holding) :
      Step s ⟨Function.update s.phase t Phase.finished, none, s.trace⟩
  | publishPrompt (s : Sys) (t : Nat) (h1 : s.owner = some t)
      (h2 : s.phase t = Phase.holding) :
      Step s ⟨Function.update s.phase t Phase.waiting, some t,
              s.trace ++ [Ev.prompt t]⟩
  | settle (s : Sys) (t : Nat) (h1 : s.owner = some t)
      (h2 : s.phase t = Phase.waiting) :
      Step s ⟨Function.update s.phase t Phase.finished, none,
              s.trace ++ [Ev.settle t]⟩

/-- States reachable from the initial state by any interleaving. -/

abbrev Reaches (s : Sys) : Prop := Relation.ReflTransGen Step Sys.init s

/-- The inductive invariant tying phases, the lock owner and the trace. -/

def Inv (s : Sys) : Prop :=
  (∀ t, s.phase t = Phase.ready →
      Ev.prompt t ∉ s.trace ∧ Ev.settle t ∉ s.trace) ∧
    (∀ t, s.phase t = Phase.holding →
      s.owner = some t ∧ Ev.prompt t ∉ s.trace ∧ Ev.settle t ∉ s.trace) ∧
    (∀ t, s.phase t = Phase.waiting →
      s.owner = some t ∧ Ev.prompt t ∈ s.trace ∧ Ev.settle t ∉ s.trace) ∧
    (∀ t, s.phase t = Phase.finished →
      Ev.prompt t ∈ s.trace → Ev.settle t ∈ s.trace)

/-- Single-flight as a trace property: any prompt already in the trace when a
further prompt is appended has been settled first. -/

def GoodTrace (tr : List Ev) : Prop :=
  ∀ u b w, tr = u ++ Ev.prompt b :: w → ∀ a, Ev.prompt a ∈ u → Ev.settle a ∈ u

end SingleFlight

namespace Permission

/-! Helper lemmas about the pending-request table and the decision calls. -/

theorem countKey_pendDel (l : List (String × Option Bool)) (k : String) :
    countKey (pendDel l k) k = 0 := by
  induction l with
  | nil => rfl
  | cons e t ih =>
      by_cases h : e.1 == k
      · simpa [pendDel, countKey, h] using ih
      · simpa [pendDel, countKey, h] using ih

theorem pendGet_pendDel (l : List (String × Option Bool)) (k : String) :
    pendGet (pendDel l k) k = none := by
  induction l with
  | nil => rfl
  | cons e t ih =>
      by_cases h : e.1 == k
      · simpa [pendDel, pendGet, h] using ih
      · simpa [pendDel, pendGet, List.find?, h] using ih

theorem countKey_pendSet (l : List (String × Option Bool)) (k : String)
    (v : Option Bool) : countKey (pendSet l k v) k = 1 := by
  have h := countKey_pendDel l k
  simp [pendSet, countKey] at h ⊢
  simpa [countKey] using h

theorem pendGet_pendSet (l : List (String × Option Bool)) (k : String)
    (v : Option Bool) : pendGet (pendSet l k v) k = some v := by
  simp [pendGet, pendSet, List.find?]

theorem clearActive_preserves (s : ServiceState) (id : String) :
    (clearActive s id).mode = s.mode ∧
      (clearActive s id).allowedTools = s.allowedTools ∧
      (clearActive s id).autoApproveSessions = s.autoApproveSessions ∧
      (clearActive s id).workingDir = s.workingDir ∧
      (clearActive s id).sessionPermissions = s.sessionPermissions ∧
      (clearActive s id).pendingRequests = s.pendingRequests := by
  unfold clearActive
  rcases s.activeRequest with _ | a
  · simp
  · dsimp only
    split <;> simp

theorem grantPersistent_some (s s1 : ServiceState) (p : PermissionRequest)
    (es : List Effect) (h : grantPersistent s p = some (s1, es)) :
    s1.mode = s.mode ∧ s1.allowedTools = s.allowedTools ∧
      s1.autoApproveSessions = s.autoApproveSessions ∧
      s1.workingDir = s.workingDir ∧
      s1.sessionPermissions = s.sessionPermissions ++ [p] := by
  unfold grantPersistent at h
  rcases hd : deliverSlot s.pendingRequests p.id true with _ | pr
  · rw [hd] at h; exact absurd h (by simp)
  · rw [hd] at h
    simp only [Option.some.injEq, Prod.mk.injEq] at h
    obtain ⟨h1, h2⟩ := h
    subst h1
    have hc := clearActive_preserves
      { s with pendingRequests := pr.1,
               sessionPermissions := s.sessionPermissions ++ [p] } p.id
    exact ⟨hc.1, hc.2.1, hc.2.2.1, hc.2.2.2.1, hc.2.2.2.2.1⟩

/-- Shape of a `requestAfterGate` call that ends in the prompting branch. -/

theorem requestAfterGate_pending (fsStat : String → Option Bool)
    (dirOf : String → String) (freshID : String) (s s1 : ServiceState)
    (opts : CreatePermissionRequest) (es : List Effect) (p : PermissionRequest)
    (h : requestAfterGate fsStat dirOf freshID s opts = (s1, es, .pending p)) :
    p = { id := freshID, sessionID := opts.sessionID, toolCallID := opts.toolCallID,
          toolName := opts.toolName, description := opts.description,
          action := opts.action,
          path := resolvePath fsStat dirOf s.workingDir opts.path } ∧
      s1 = { s with activeRequest := some p,
                    pendingRequests := pendSet s.pendingRequests freshID none } ∧
      es = [Effect.notifyEv ⟨opts.toolCallID, false, false⟩, Effect.promptEv p] := by
  simp only [requestAfterGate] at h
  split at h
  · exact absurd h (by simp)
  · split at h
    · exact absurd h (by simp)
    · split at h
      · exact absurd h (by simp)
      · simp only [Prod.mk.injEq, RequestOutcome.pending.injEq] at h
        obtain ⟨h1, h2, h3⟩ := h
        subst h3
        exact ⟨rfl, h1.symm, h2.symm⟩

/-- A `request` call that ends in the prompting branch went through
`requestAfterGate`. -/

theorem request_pending_gate (fsStat : String → Option Bool)
    (dirOf : String → String) (freshID : String) (s s1 : ServiceState)
    (opts : CreatePermissionRequest) (es : List Effect) (p : PermissionRequest)
    (h : request fsStat dirOf freshID s opts = (s1, es, .pending p)) :
    requestAfterGate fsStat dirOf freshID s opts = (s1, es, .pending p) := by
  unfold request at h
  cases hm : s.mode <;> simp only [hm] at h
  · exact h
  · exact absurd h (by simp)
  · split at h
    · exact absurd h (by simp)
    · exact h

/-- Shape of a `request` call that ends in the prompting branch. -/

theorem request_pending (fsStat : String → Option Bool)
    (dirOf : String → String) (freshID : String) (s s1 : ServiceState)
    (opts : CreatePermissionRequest) (es : List Effect) (p : PermissionRequest)
    (h : request fsStat dirOf freshID s opts = (s1, es, .pending p)) :
    p = { id := freshID, sessionID := opts.sessionID, toolCallID := opts.toolCallID,
          toolName := opts.toolName, description := opts.description,
          action := opts.action,
          path := resolvePath fsStat dirOf s.workingDir opts.path } ∧
      s1 = { s with activeRequest := some p,
                    pendingRequests := pendSet s.pendingRequests freshID none } ∧
      es = [Effect.notifyEv ⟨opts.toolCallID, false, false⟩, Effect.promptEv p] :=
  requestAfterGate_pending _ _ _ _ _ _ _ _
    (request_pending_gate _ _ _ _ _ _ _ _ h)

/-- C4 counterexample: on a service with an empty pending-request table, the
stale call `GrantPersistent p4ex` does not leave the service state unchanged:
it appends `p4ex` to the session permission cache and publishes a granted
notification. -/

theorem c4_counterexample :
    pendGet s4ex.pendingRequests p4ex.id = none ∧
      grantPersistent s4ex p4ex =
        some ({ s4ex with sessionPermissions := [p4ex] },
              [Effect.notifyEv ⟨"tc4", true, false⟩, Effect.cacheAppendEv p4ex]) ∧
      ({ s4ex with sessionPermissions := [p4ex] }).sessionPermissions ≠
        s4ex.sessionPermissions := by
  decide

/-- C4 (amended): a Grant, GrantPersistent or Deny whose ID has no pending
rendezvous slot never blocks and never fails (the result is always `some`),
delivers no decision, and leaves the pending-request table untouched; however
each still publishes its notification, `GrantPersistent` still appends the
request to the session permission cache, and each still clears a matching
active request. -/

theorem c4_stale_decision_noop (s : ServiceState) (p : PermissionRequest)
    (h : pendGet s.pendingRequests p.id = none) :
    grant s p = some (clearActive s p.id,
        [Effect.notifyEv ⟨p.toolCallID, true, false⟩]) ∧
      deny s p = some (clearActive s p.id,
        [Effect.notifyEv ⟨p.toolCallID, false, true⟩]) ∧
      grantPersistent s p =
        some (clearActive
                { s with sessionPermissions := s.sessionPermissions ++ [p] } p.id,
              [Effect.notifyEv ⟨p.toolCallID, true, false⟩, Effect.cacheAppendEv p]) ∧
      (clearActive s p.id).pendingRequests = s.pendingRequests := by
  refine ⟨?_, ?_, ?_, (clearActive_preserves s p.id).2.2.2.2.2⟩ <;>
    simp [grant, deny, grantPersistent, deliverSlot, h]

/-- C4 witness: the amended statement evaluated on the concrete stale call of
the counterexample's fixture. -/

theorem c4_stale_decision_noop_witness :
    grant s4ex p4ex = some (clearActive s4ex p4ex.id,
        [Effect.notifyEv ⟨p4ex.toolCallID, true, false⟩]) ∧
      deny s4ex p4ex = some (clearActive s4ex p4ex.id,
        [Effect.notifyEv ⟨p4ex.toolCallID, false, true⟩]) ∧
      grantPersistent s4ex p4ex =
        some (clearActive
                { s4ex with sessionPermissions := s4ex.sessionPermissions ++ [p4ex] }
                p4ex.id,
              [Effect.notifyEv ⟨p4ex.toolCallID, true, false⟩,
               Effect.cacheAppendEv p4ex]) ∧
      (clearActive s4ex p4ex.id).pendingRequests = s4ex.pendingRequests :=
  c4_stale_decision_noop s4ex p4ex (by decide)

/-- C5 counterexample: a `GrantPersistent` that does resolve a pending request
(the trace contains the rendezvous delivery) has the cache append *after* the
delivery, not before it. -/

theorem c5_counterexample :
    hasDeliverEv (effectsOf (grantPersistent s5ex p5ex)) = true ∧
      cacheAppendPrecedesDeliver (effectsOf (grantPersistent s5ex p5ex)) = false := by
  decide

/-- C5 (amended): when `GrantPersistent` finds a pending slot with an empty
buffer, it publishes the granted notification, then delivers `true` on the
rendezvous slot, and only then appends the request to the session permission
cache — so the blocked caller can unblock before the cache contains the
granted record; after the call returns the cache does contain it. -/

theorem c5_grant_persistent_order (s : ServiceState) (p : PermissionRequest)
    (h : pendGet s.pendingRequests p.id = some none) :
    grantPersistent s p =
      some (clearActive
              { s with pendingRequests := pendSet s.pendingRequests p.id (some true),
                       sessionPermissions := s.sessionPermissions ++ [p] } p.id,
            [Effect.notifyEv ⟨p.toolCallID, true, false⟩,
             Effect.deliverEv p.id true, Effect.cacheAppendEv p]) ∧
      cacheAppendPrecedesDeliver
        [Effect.notifyEv ⟨p.toolCallID, true, false⟩,
         Effect.deliverEv p.id true, Effect.cacheAppendEv p] = false ∧
      (clearActive
          { s with pendingRequests := pendSet s.pendingRequests p.id (some true),
                   sessionPermissions := s.sessionPermissions ++ [p] }
          p.id).sessionPermissions = s.sessionPermissions ++ [p] := by
  refine ⟨?_, rfl, (clearActive_preserves _ _).2.2.2.2.1⟩
  simp [grantPersistent, deliverSlot, h]

/-- C5 witness: the amended statement evaluated on the counterexample's
fixture. -/

theorem c5_grant_persistent_order_witness :
    grantPersistent s5ex p5ex =
      some (clearActive
              { s5ex with
                  pendingRequests := pendSet s5ex.pendingRequests p5ex.id (some true),
                  sessionPermissions := s5ex.sessionPermissions ++ [p5ex] } p5ex.id,
            [Effect.notifyEv ⟨p5ex.toolCallID, true, false⟩,
             Effect.deliverEv p5ex.id true, Effect.cacheAppendEv p5ex]) ∧
      cacheAppendPrecedesDeliver
        [Effect.notifyEv ⟨p5ex.toolCallID, true, false⟩,
         Effect.deliverEv p5ex.id true, Effect.cacheAppendEv p5ex] = false ∧
      (clearActive
          { s5ex with
              pendingRequests := pendSet s5ex.pendingRequests p5ex.id (some true),
              sessionPermissions := s5ex.sessionPermissions ++ [p5ex] }
          p5ex.id).sessionPermissions = s5ex.sessionPermissions ++ [p5ex] :=
  c5_grant_persistent_order s5ex p5ex (by decide)

/-- In Regular mode `Request` is the post-gate body. -/

theorem request_eq_gate (fsStat : String → Option Bool) (dirOf : String → String)
    (freshID : String) (s : ServiceState) (opts : CreatePermissionRequest)
    (hmode : s.mode = PermissionMode.ModeRegular) :
    request fsStat dirOf freshID s opts =
      requestAfterGate fsStat dirOf freshID s opts := by
  unfold request
  rw [hmode]

/-- C6 counterexample: a Regular-mode request whose tool sits in the allowlist
returns `(true, nil)` with no prompt, but the only notification emitted is the
generic "requested" one — no granted notification is published on that fast
path. -/

theorem c6_counterexample :
    s6ex.allowedTools.contains "bash" = true ∧
      request noFS idDir "id6" s6ex opts6ex =
        (s6ex, [Effect.notifyEv ⟨"tc6", false, false⟩], .immediate true none) ∧
      hasGrantedNotif [Effect.notifyEv ⟨"tc6", false, false⟩] = false := by
  decide

/-- C6 (amended): in Regular mode every fast-path hit returns `(true, nil)`
without creating or publishing a prompt; the auto-approve and session-cache
hits additionally emit a granted notification carrying the request's
toolCallID, while an allowlist hit (as `"tool:action"` or bare `"tool"`)
returns with only the generic "requested" notification and no granted one. -/

theorem c6_fast_path_notification (fsStat : String → Option Bool)
    (dirOf : String → String) (freshID : String) (s : ServiceState)
    (opts : CreatePermissionRequest)
    (hmode : s.mode = PermissionMode.ModeRegular) :
    ((s.allowedTools.contains (opts.toolName ++ ":" ++ opts.action) ||
        s.allowedTools.contains opts.toolName) = true →
      request fsStat dirOf freshID s opts =
        (s, [Effect.notifyEv ⟨opts.toolCallID, false, false⟩],
         .immediate true none)) ∧
    ((s.allowedTools.contains (opts.toolName ++ ":" ++ opts.action) ||
        s.allowedTools.contains opts.toolName) = false →
      s.autoApproveSessions.contains opts.sessionID = true →
      request fsStat dirOf freshID s opts =
        (s, [Effect.notifyEv ⟨opts.toolCallID, false, false⟩,
             Effect.notifyEv ⟨opts.toolCallID, true, false⟩],
         .immediate true none)) ∧
    ((s.allowedTools.contains (opts.toolName ++ ":" ++ opts.action) ||
        s.allowedTools.contains opts.toolName) = false →
      s.autoApproveSessions.contains opts.sessionID = false →
      cacheHit s.sessionPermissions
        { id := freshID, sessionID := opts.sessionID, toolCallID := opts.toolCallID,
          toolName := opts.toolName, description := opts.description,
          action := opts.action,
          path := resolvePath fsStat dirOf s.workingDir opts.path } = true →
      request fsStat dirOf freshID s opts =
        (s, [Effect.notifyEv ⟨opts.toolCallID, false, false⟩,
             Effect.notifyEv ⟨opts.toolCallID, true, false⟩],
         .immediate true none)) := by
  rw [request_eq_gate fsStat dirOf freshID s opts hmode]
  unfold requestAfterGate
  refine ⟨?_, ?_, ?_⟩
  · intro h
    simp at h
    rcases h with h | h <;> simp [h]
  · intro h1 h2
    simp at h1 h2
    simp [h1.1, h1.2, h2]
  · intro h1 h2 h3
    simp at h1 h2
    simp [h1.1, h1.2, h2, h3]

/-- C6 witness: the auto-approve fast path on a concrete state emits the
granted notification and approves. -/

theorem c6_fast_path_notification_witness :
    request noFS idDir "id6" s6aex opts6ex =
      (s6aex, [Effect.notifyEv ⟨opts6ex.toolCallID, false, false⟩,
               Effect.notifyEv ⟨opts6ex.toolCallID, true, false⟩],
       .immediate true none) :=
  (c6_fast_path_notification noFS idDir "id6" s6aex opts6ex rfl).2.1
    (by decide) (by decide)

/-- C7 counterexample: a Regular-mode request with an empty path (on which the
filesystem probe fails) synthesizes a PermissionRequest whose stored path is
the empty string, not the configured working directory `"/wd"`. -/

theorem c7_counterexample :
    request noFS idDir "id7" s7ex opts7ex =
      (s7res, [Effect.notifyEv ⟨"tc7", false, false⟩, Effect.promptEv p7ex],
       .pending p7ex) ∧
      opts7ex.path = "" ∧ p7ex.path ≠ s7ex.workingDir := by
  decide

/-- C7 (amended): every synthesized PermissionRequest stores
`resolvePath fsStat dirOf workingDir path`, which behaves as follows: for an
existing non-directory file it is the file's parent directory, for an existing
directory the path itself, and for a path the probe cannot stat the path
unchanged; the working directory is substituted only when that intermediate
result is exactly `"."` — in particular an empty (nonexistent) path yields an
empty stored path, not the working directory. -/

theorem c7_path_resolution :
    (∀ (fsStat : String → Option Bool) (dirOf : String → String)
        (freshID : String) (s s1 : ServiceState)
        (opts : CreatePermissionRequest) (es : List Effect)
        (p : PermissionRequest),
        request fsStat dirOf freshID s opts = (s1, es, .pending p) →
        p.path = resolvePath fsStat dirOf s.workingDir opts.path) ∧
      (∀ (fsStat : String → Option Bool) (dirOf : String → String)
          (wd path : String), fsStat path = some false →
        resolvePath fsStat dirOf wd path =
          if dirOf path == "." then wd else dirOf path) ∧
      (∀ (fsStat : String → Option Bool) (dirOf : String → String)
          (wd path : String), fsStat path = some true →
        resolvePath fsStat dirOf wd path = if path == "." then wd else path) ∧
      (∀ (fsStat : String → Option Bool) (dirOf : String → String)
          (wd path : String), fsStat path = none →
        resolvePath fsStat dirOf wd path = if path == "." then wd else path) ∧
      (∀ (fsStat : String → Option Bool) (dirOf : String → String)
          (wd : String), fsStat "" = none →
        resolvePath fsStat dirOf wd "" = "") := by
  refine ⟨?_, ?_, ?_, ?_, ?_⟩
  · intro fsStat dirOf freshID s s1 opts es p h
    rw [(request_pending fsStat dirOf freshID s s1 opts es p h).1]
  · intro fsStat dirOf wd path h
    simp [resolvePath, h]
  · intro fsStat dirOf wd path h
    simp [resolvePath, h]
  · intro fsStat dirOf wd path h
    simp [resolvePath, h]
  · intro fsStat dirOf wd h
    simp [resolvePath, h]
    intro hc
    exact absurd hc (by decide)

/-- C7 witness: the stored path of the concrete empty-path request equals the
resolver's output (the empty string). -/

theorem c7_path_resolution_witness :
    p7ex.path = resolvePath noFS idDir s7ex.workingDir opts7ex.path :=
  c7_path_resolution.1 noFS idDir "id7" s7ex s7res opts7ex
    [Effect.notifyEv ⟨"tc7", false, false⟩, Effect.promptEv p7ex] p7ex
    (by decide)

theorem cacheHit_append (l : List PermissionRequest) (q r : PermissionRequest) :
    cacheHit (l ++ [q]) r = (cacheHit l r || matchesCache q r) := by
  simp [cacheHit]

/-- C8: after a `GrantPersistent` that resolves a request `p` of session S,
tool T, action A and resolved path P, a Regular-mode request for the same
(T, A, S) whose path resolves to P — with no allowlist or auto-approve hit —
returns `(true, nil)` with a granted notification and no prompt, while an
otherwise identical request whose path resolves to P2 ≠ P (and which no prior
cache record matches) still synthesizes and publishes a prompt. -/

theorem c8_persistent_grant_memoization (fsStat : String → Option Bool)
    (dirOf : String → String) (fid fid2 : String) (s s1 : ServiceState)
    (es : List Effect) (p : PermissionRequest)
    (opts opts2 : CreatePermissionRequest)
    (hgp : grantPersistent s p = some (s1, es))
    (hmode : s.mode = PermissionMode.ModeRegular)
    (ha1 : s.allowedTools.contains (opts.toolName ++ ":" ++ opts.action) = false)
    (ha2 : s.allowedTools.contains opts.toolName = false)
    (hauto : s.autoApproveSessions.contains opts.sessionID = false)
    (hT : opts.toolName = p.toolName) (hA : opts.action = p.action)
    (hS : opts.sessionID = p.sessionID)
    (hP : resolvePath fsStat dirOf s.workingDir opts.path = p.path)
    (hb1 : s.allowedTools.contains (opts2.toolName ++ ":" ++ opts2.action) = false)
    (hb2 : s.allowedTools.contains opts2.toolName = false)
    (hbauto : s.autoApproveSessions.contains opts2.sessionID = false)
    (hT2 : opts2.toolName = p.toolName) (hA2 : opts2.action = p.action)
    (hS2 : opts2.sessionID = p.sessionID)
    (hP2 : resolvePath fsStat dirOf s.workingDir opts2.path ≠ p.path)
    (hprior : cacheHit s.sessionPermissions
        { id := fid2, sessionID := opts2.sessionID, toolCallID := opts2.toolCallID,
          toolName := opts2.toolName, description := opts2.description,
          action := opts2.action,
          path := resolvePath fsStat dirOf s.workingDir opts2.path } = false) :
    request fsStat dirOf fid s1 opts =
      (s1, [Effect.notifyEv ⟨opts.toolCallID, false, false⟩,
            Effect.notifyEv ⟨opts.toolCallID, true, false⟩],
       .immediate true none) ∧
      (request fsStat dirOf fid2 s1 opts2).2.2 =
        .pending { id := fid2, sessionID := opts2.sessionID,
                   toolCallID := opts2.toolCallID, toolName := opts2.toolName,
                   description := opts2.description, action := opts2.action,
                   path := resolvePath fsStat dirOf s.workingDir opts2.path } ∧
      hasPromptEv (request fsStat dirOf fid2 s1 opts2).2.1 = true := by
  obtain ⟨hm1, hal, hau, hwd, hsp⟩ := grantPersistent_some s s1 p es hgp
  have hmode1 : s1.mode = PermissionMode.ModeRegular := hm1.trans hmode
  have hmc1 : matchesCache p
      { id := fid, sessionID := opts.sessionID, toolCallID := opts.toolCallID,
        toolName := opts.toolName, description := opts.description,
        action := opts.action,
        path := resolvePath fsStat dirOf s.workingDir opts.path } = true := by
    simp [matchesCache, hT, hA, hS, hP]
  have hmc2 : matchesCache p
      { id := fid2, sessionID := opts2.sessionID, toolCallID := opts2.toolCallID,
        toolName := opts2.toolName, description := opts2.description,
        action := opts2.action,
        path := resolvePath fsStat dirOf s.workingDir opts2.path } = false := by
    simp [matchesCache, hT2, hA2, hS2]
    intro hpp
    exact hP2 hpp.symm
  simp at ha1 ha2 hauto hb1 hb2 hbauto
  refine ⟨?_, ?_⟩
  · rw [request_eq_gate fsStat dirOf fid s1 opts hmode1]
    unfold requestAfterGate
    simp [hal, hau, hwd, hsp, ha1, ha2, hauto, cacheHit_append, hmc1]
  · have hfull : request fsStat dirOf fid2 s1 opts2 =
        ({ s1 with
            activeRequest := some
              { id := fid2, sessionID := opts2.sessionID,
                toolCallID := opts2.toolCallID, toolName := opts2.toolName,
                description := opts2.description, action := opts2.action,
                path := resolvePath fsStat dirOf s.workingDir opts2.path },
            pendingRequests := pendSet s1.pendingRequests fid2 none },
         [Effect.notifyEv ⟨opts2.toolCallID, false, false⟩,
          Effect.promptEv
            { id := fid2, sessionID := opts2.sessionID,
              toolCallID := opts2.toolCallID, toolName := opts2.toolName,
              description := opts2.description, action := opts2.action,
              path := resolvePath fsStat dirOf s.workingDir opts2.path }],
         .pending
           { id := fid2, sessionID := opts2.sessionID,
             toolCallID := opts2.toolCallID, toolName := opts2.toolName,
             description := opts2.description, action := opts2.action,
             path := resolvePath fsStat dirOf s.workingDir opts2.path }) := by
      rw [request_eq_gate fsStat dirOf fid2 s1 opts2 hmode1]
      unfold requestAfterGate
      simp [hal, hau, hwd, hsp, hb1, hb2, hbauto, cacheHit_append, hmc2, hprior]
    rw [hfull]
    exact ⟨rfl, by simp [hasPromptEv]⟩

/-- C8 witness: after the concrete persistent grant on path `"/repo"`, an
identical request approves silently while the same request on `"/other"`
prompts. -/

theorem c8_persistent_grant_memoization_witness :
    request fs8 idDir "f1" s8res opts8ex =
      (s8res, [Effect.notifyEv ⟨opts8ex.toolCallID, false, false⟩,
               Effect.notifyEv ⟨opts8ex.toolCallID, true, false⟩],
       .immediate true none) ∧
      (request fs8 idDir "f2" s8res opts8bex).2.2 =
        .pending { id := "f2", sessionID := opts8bex.sessionID,
                   toolCallID := opts8bex.toolCallID, toolName := opts8bex.toolName,
                   description := opts8bex.description, action := opts8bex.action,
                   path := resolvePath fs8 idDir s8ex.workingDir opts8bex.path } ∧
      hasPromptEv (request fs8 idDir "f2" s8res opts8bex).2.1 = true :=
  c8_persistent_grant_memoization fs8 idDir "f1" "f2" s8ex s8res
    [Effect.notifyEv ⟨"tc8", true, false⟩, Effect.deliverEv "id8" true,
     Effect.cacheAppendEv p8ex]
    p8ex opts8ex opts8bex (by decide) rfl (by decide) (by decide) (by decide)
    rfl rfl rfl (by decide) (by decide) (by decide) (by decide) rfl rfl rfl
    (by decide) (by decide)

/-- C9: when a `Request` has reached the rendezvous wait (outcome `.pending p`),
exactly one slot for `p.id` sits in the pending-request table; if the caller's
context ends first, the wait returns `(false, context-error)` and the cleanup
removes the entry for `p.id` exactly once (its key count drops from 1 to 0),
and a later `Deny` against that ID finds no pending slot: it delivers nothing
and leaves the table unchanged. -/

theorem c9_cancellation (fsStat : String → Option Bool) (dirOf : String → String)
    (fid : String) (s s1 : ServiceState) (opts : CreatePermissionRequest)
    (es : List Effect) (p : PermissionRequest) (err : String)
    (hreq : request fsStat dirOf fid s opts = (s1, es, .pending p)) :
    countKey s1.pendingRequests p.id = 1 ∧
      cancelWait s1 p.id err =
        ({ s1 with pendingRequests := pendDel s1.pendingRequests p.id },
         (false, some err)) ∧
      countKey (pendDel s1.pendingRequests p.id) p.id = 0 ∧
      deny { s1 with pendingRequests := pendDel s1.pendingRequests p.id } p =
        some (clearActive
                { s1 with pendingRequests := pendDel s1.pendingRequests p.id } p.id,
              [Effect.notifyEv ⟨p.toolCallID, false, true⟩]) := by
  obtain ⟨hp, hs1, hes⟩ := request_pending fsStat dirOf fid s s1 opts es p hreq
  have hpid : p.id = fid := by rw [hp]
  refine ⟨?_, rfl, countKey_pendDel _ _, ?_⟩
  · rw [hs1, hpid]
    exact countKey_pendSet s.pendingRequests fid none
  · simp [deny, deliverSlot, pendGet_pendDel]

/-- C9 witness: the cancellation facts evaluated on a concrete prompting
request. -/

theorem c9_cancellation_witness :
    countKey s9res.pendingRequests p9ex.id = 1 ∧
      cancelWait s9res p9ex.id "context canceled" =
        ({ s9res with pendingRequests := pendDel s9res.pendingRequests p9ex.id },
         (false, some "context canceled")) ∧
      countKey (pendDel s9res.pendingRequests p9ex.id) p9ex.id = 0 ∧
      deny { s9res with pendingRequests := pendDel s9res.pendingRequests p9ex.id }
          p9ex =
        some (clearActive
                { s9res with
                    pendingRequests := pendDel s9res.pendingRequests p9ex.id }
                p9ex.id,
              [Effect.notifyEv ⟨p9ex.toolCallID, false, true⟩]) :=
  c9_cancellation noFS idDir "id9" s9ex s9res opts9ex
    [Effect.notifyEv ⟨"tc9", false, false⟩, Effect.promptEv p9ex] p9ex
    "context canceled" (by decide)

/-- C2: while the mode is Plan, a request whose action is `write` or `execute`
by a tool outside the read-only exemption set returns
`(false, "write operations are not allowed in plan mode")` and produces no
effect at all — in particular no prompt — whatever the allowlist, the session
cache and the auto-approve set contain, since the block precedes every
fast-path check. -/

theorem c2_plan_mode_write_block (fsStat : String → Option Bool)
    (dirOf : String → String) (freshID : String) (s : ServiceState)
    (opts : CreatePermissionRequest)
    (hmode : s.mode = PermissionMode.ModePlan)
    (hw : isWriteOperation opts.action = true)
    (hr : isReadOnlyTool opts.toolName = false) :
    request fsStat dirOf freshID s opts =
      (s, [], .immediate false (some "write operations are not allowed in plan mode")) := by
  unfold request
  rw [hmode]
  simp [hw, hr]

/-- C2 witness: a concrete plan-mode state whose allowlist even contains the
tool, with a write action, is still blocked with the plan-mode error and no
effects. -/

theorem c2_plan_mode_write_block_witness :
    request (fun _ => none) (fun p => p) "id1"
        { workingDir := "/wd", sessionPermissions := [], pendingRequests := [],
          autoApproveSessions := ["s1"], mode := .ModePlan,
          allowedTools := ["bash"], activeRequest := none }
        { sessionID := "s1", toolCallID := "tc1", toolName := "bash",
          description := "", action := "execute", path := "/repo" } =
      ({ workingDir := "/wd", sessionPermissions := [], pendingRequests := [],
         autoApproveSessions := ["s1"], mode := .ModePlan,
         allowedTools := ["bash"], activeRequest := none }, [],
       .immediate false (some "write operations are not allowed in plan mode")) :=
  c2_plan_mode_write_block (fun _ => none) (fun p => p) "id1" _ _ rfl
    (by decide) (by decide)

/-- C3: while the mode is Yolo, `Request` returns `(true, nil)` with an empty
effect trace: no prompt-created event and no notification of any kind, the
"requested" notification included, since the yolo return precedes the
notification publish. -/

theorem c3_yolo_mode (fsStat : String → Option Bool) (dirOf : String → String)
    (freshID : String) (s : ServiceState) (opts : CreatePermissionRequest)
    (hmode : s.mode = PermissionMode.ModeYolo) :
    request fsStat dirOf freshID s opts = (s, [], .immediate true none) := by
  unfold request
  rw [hmode]

/-- C3 witness: a concrete yolo-mode request. -/

theorem c3_yolo_mode_witness :
    request (fun _ => none) (fun p => p) "id1"
        (newPermissionService "/wd" true [])
        { sessionID := "s1", toolCallID := "tc1", toolName := "bash",
          description := "", action := "execute", path := "/repo" } =
      (newPermissionService "/wd" true [], [], .immediate true none) :=
  c3_yolo_mode (fun _ => none) (fun p => p) "id1" _ _ (by decide)

/-- C10: `SkipRequests` returns `true` exactly when the mode is Yolo, and
`SetSkipRequests false` puts the service in Regular mode whatever mode it was
in — in particular it silently exits Plan mode. -/

theorem c10_skip_requests_controls (s : ServiceState) :
    (skipRequests s = true ↔ s.mode = PermissionMode.ModeYolo) ∧
      (setSkipRequests s false).mode = PermissionMode.ModeRegular := by
  constructor
  · unfold skipRequests getMode
    cases s.mode <;> decide
  · rfl

/-- C10 witness: on a concrete Plan-mode state `SkipRequests` reports `false`
and `SetSkipRequests false` silently moves the service to Regular mode. -/
theorem c10_skip_requests_controls_witness :
    (skipRequests s10ex = true ↔ s10ex.mode = PermissionMode.ModeYolo) ∧
      (setSkipRequests s10ex false).mode = PermissionMode.ModeRegular :=
  c10_skip_requests_controls s10ex

end Permission

namespace SingleFlight

theorem settled_of_holding (s : Sys) (hInv : Inv s) (t : Nat)
    (h1 : s.owner = some t) (h2 : s.phase t = Phase.holding) (a : Nat)
    (hp : Ev.prompt a ∈ s.trace) : Ev.settle a ∈ s.trace := by
  obtain ⟨hready, hhold, hwait, hfin⟩ := hInv
  cases hph : s.phase a with
  | ready => exact absurd hp (hready a hph).1
  | holding => exact absurd hp (hhold a hph).2.1
  | waiting =>
      have h3 := (hwait a hph).1
      rw [h1] at h3
      injection h3 with h4
      subst h4
      rw [h2] at hph
      exact absurd hph (by decide)
  | finished => exact hfin a hph hp

theorem append_singleton_cases {α : Type} (tr u w : List α) (e b : α)
    (h : tr ++ [e] = u ++ b :: w) :
    (u = tr ∧ b = e ∧ w = []) ∨ ∃ w2, w = w2 ++ [e] ∧ tr = u ++ b :: w2 := by
  rcases List.eq_nil_or_concat w with rfl | ⟨w2, e2, rfl⟩
  · left
    obtain ⟨h1, h2⟩ := List.append_inj' h rfl
    injection h2 with h3 h4
    exact ⟨h1.symm, h3.symm, rfl⟩
  · right
    have h2 : tr ++ [e] = (u ++ b :: w2) ++ [e2] := by
      rw [List.concat_eq_append] at h
      simpa [List.append_assoc] using h
    obtain ⟨h3, h4⟩ := List.append_inj' h2 rfl
    injection h4 with h5 h6
    refine ⟨w2, ?_, h3⟩
    rw [h5]
    exact List.concat_eq_append w2 e2

theorem inv_step (s s2 : Sys) (hs : Step s s2) (hInv : Inv s) : Inv s2 := by
  obtain ⟨hready, hhold, hwait, hfin⟩ := hInv
  cases hs with
  | acquire t h1 h2 =>
      refine ⟨?_, ?_, ?_, ?_⟩ <;> intro t2 hph <;> dsimp only at hph ⊢ <;>
        rcases eq_or_ne t2 t with rfl | ht
      · rw [Function.update_same] at hph
        exact absurd hph (by decide)
      · rw [Function.update_noteq ht] at hph
        exact hready t2 hph
      · exact ⟨rfl, hready t2 h2⟩
      · rw [Function.update_noteq ht] at hph
        have h3 := (hhold t2 hph).1
        rw [h1] at h3
        exact absurd h3 (by simp)
      · rw [Function.update_same] at hph
        exact absurd hph (by decide)
      · rw [Function.update_noteq ht] at hph
        have h3 := (hwait t2 hph).1
        rw [h1] at h3
        exact absurd h3 (by simp)
      · rw [Function.update_same] at hph
        exact absurd hph (by decide)
      · rw [Function.update_noteq ht] at hph
        exact hfin t2 hph
  | fastReturn t h1 h2 =>
      refine ⟨?_, ?_, ?_, ?_⟩ <;> intro t2 hph <;> dsimp only at hph ⊢ <;>
        rcases eq_or_ne t2 t with rfl | ht
      · rw [Function.update_same] at hph
        exact absurd hph (by decide)
      · rw [Function.update_noteq ht] at hph
        exact hready t2 hph
      · rw [Function.update_same] at hph
        exact absurd hph (by decide)
      · rw [Function.update_noteq ht] at hph
        have h3 := (hhold t2 hph).1
        rw [h1] at h3
        injection h3 with h4
        exact absurd h4.symm ht
      · rw [Function.update_same] at hph
        exact absurd hph (by decide)
      · rw [Function.update_noteq ht] at hph
        have h3 := (hwait t2 hph).1
        rw [h1] at h3
        injection h3 with h4
        exact absurd h4.symm ht
      · intro hp
        exact absurd hp (hhold t2 h2).2.1
      · rw [Function.update_noteq ht] at hph
        exact hfin t2 hph
  | publishPrompt t h1 h2 =>
      refine ⟨?_, ?_, ?_, ?_⟩ <;> intro t2 hph <;> dsimp only at hph ⊢ <;>
        rcases eq_or_ne t2 t with rfl | ht
      · rw [Function.update_same] at hph
        exact absurd hph (by decide)
      · rw [Function.update_noteq ht] at hph
        obtain ⟨hp, hsn⟩ := hready t2 hph
        constructor
        · intro hx
          rcases List.mem_append.mp hx with hx | hx
          · exact hp hx
          · simp at hx
            exact ht hx
        · intro hx
          rcases List.mem_append.mp hx with hx | hx
          · exact hsn hx
          · simp at hx
      · rw [Function.update_same] at hph
        exact absurd hph (by decide)
      · rw [Function.update_noteq ht] at hph
        have h3 := (hhold t2 hph).1
        rw [h1] at h3
        injection h3 with h4
        exact absurd h4.symm ht
      · refine ⟨rfl, by simp, ?_⟩
        intro hx
        rcases List.mem_append.mp hx with hx | hx
        · exact (hhold t2 h2).2.2 hx
        · simp at hx
      · rw [Function.update_noteq ht] at hph
        have h3 := (hwait t2 hph).1
        rw [h1] at h3
        injection h3 with h4
        exact absurd h4.symm ht
      · rw [Function.update_same] at hph
        exact absurd hph (by decide)
      · rw [Function.update_noteq ht] at hph
        intro hp
        rcases List.mem_append.mp hp with hp | hp
        · exact List.mem_append.mpr (Or.inl (hfin t2 hph hp))
        · simp at hp
          exact absurd hp ht
  | settle t h1 h2 =>
      refine ⟨?_, ?_, ?_, ?_⟩ <;> intro t2 hph <;> dsimp only at hph ⊢ <;>
        rcases eq_or_ne t2 t with rfl | ht
      · rw [Function.update_same] at hph
        exact absurd hph (by decide)
      · rw [Function.update_noteq ht] at hph
        obtain ⟨hp, hsn⟩ := hready t2 hph
        constructor
        · intro hx
          rcases List.mem_append.mp hx with hx | hx
          · exact hp hx
          · simp at hx
        · intro hx
          rcases List.mem_append.mp hx with hx | hx
          · exact hsn hx
          · simp at hx
            exact ht hx
      · rw [Function.update_same] at hph
        exact absurd hph (by decide)
      · rw [Function.update_noteq ht] at hph
        have h3 := (hhold t2 hph).1
        rw [h1] at h3
        injection h3 with h4
        exact absurd h4.symm ht
      · rw [Function.update_same] at hph
        exact absurd hph (by decide)
      · rw [Function.update_noteq ht] at hph
        have h3 := (hwait t2 hph).1
        rw [h1] at h3
        injection h3 with h4
        exact absurd h4.symm ht
      · intro hp
        simp
      · rw [Function.update_noteq ht] at hph
        intro hp
        rcases List.mem_append.mp hp with hp | hp
        · exact List.mem_append.mpr (Or.inl (hfin t2 hph hp))
        · simp at hp

theorem good_step (s s2 : Sys) (hs : Step s s2) (hInv : Inv s)
    (hg : GoodTrace s.trace) : GoodTrace s2.trace := by
  cases hs with
  | acquire t h1 h2 => exact hg
  | fastReturn t h1 h2 => exact hg
  | publishPrompt t h1 h2 =>
      intro u b w hdec a ha
      rcases append_singleton_cases s.trace u w (Ev.prompt t) (Ev.prompt b) hdec with
        ⟨hu, hb, hw⟩ | ⟨w2, hw, htr⟩
      · subst hu
        exact settled_of_holding s hInv t h1 h2 a ha
      · exact hg u b w2 htr a ha
  | settle t h1 h2 =>
      intro u b w hdec a ha
      rcases append_singleton_cases s.trace u w (Ev.settle t) (Ev.prompt b) hdec with
        ⟨hu, hb, hw⟩ | ⟨w2, hw, htr⟩
      · exact absurd hb (by simp)
      · exact hg u b w2 htr a ha

theorem inv_init : Inv Sys.init := by
  refine ⟨?_, ?_, ?_, ?_⟩ <;> intro t2 hph
  · exact ⟨List.not_mem_nil _, List.not_mem_nil _⟩
  · exact absurd hph (by simp [Sys.init])
  · exact absurd hph (by simp [Sys.init])
  · exact absurd hph (by simp [Sys.init])

theorem good_init : GoodTrace Sys.init.trace := by
  intro u b w hdec a ha
  exact absurd hdec (by cases u <;> simp [Sys.init])

theorem reach_inv (s : Sys) (h : Reaches s) : Inv s ∧ GoodTrace s.trace := by
  induction h with
  | refl => exact ⟨inv_init, good_init⟩
  | tail h1 h2 ih =>
      exact ⟨inv_step _ _ h2 ih.1, good_step _ _ h2 ih.1 ih.2⟩

/-- C1: single-flight prompting.  In every reachable interleaving of any
number of concurrent `Request` calls, when a prompt-created event for thread
`b` enters the request stream, every prompt previously published has already
been settled — resolved by Grant/GrantPersistent/Deny or cancelled.  The model
encodes that the global `requestMu` is held from before the fast-path checks
through the entire rendezvous wait, so the (N+1)th prompt is never surfaced
until the Nth is resolved or cancelled. -/

theorem c1_single_flight (s : Sys) (hs : Reaches s) (u : List Ev) (b : Nat)
    (w : List Ev) (htr : s.trace = u ++ Ev.prompt b :: w) (a : Nat)
    (ha : Ev.prompt a ∈ u) : Ev.settle a ∈ u :=
  (reach_inv s hs).2 u b w htr a ha

/-- C1 witness: a concrete interleaving — thread 0 acquires, prompts and is
settled, then thread 1 acquires and prompts; the theorem yields that thread
0's settle event precedes thread 1's prompt. -/

theorem c1_single_flight_witness :
    Ev.settle 0 ∈ [Ev.prompt 0, Ev.settle 0] := by
  have d1 := Relation.ReflTransGen.tail (Relation.ReflTransGen.refl)
    (Step.acquire Sys.init 0 rfl rfl)
  have d2 := Relation.ReflTransGen.tail d1 (Step.publishPrompt _ 0 rfl rfl)
  have d3 := Relation.ReflTransGen.tail d2 (Step.settle _ 0 rfl rfl)
  have d4 := Relation.ReflTransGen.tail d3 (Step.acquire _ 1 rfl rfl)
  have d5 := Relation.ReflTransGen.tail d4 (Step.publishPrompt _ 1 rfl rfl)
  exact c1_single_flight _ d5 [Ev.prompt 0, Ev.settle 0] 1 [] rfl 0 (by simp)

end SingleFlight
